import Mathlib

/-!
Verification of the quote/profit/execution core of the ARBBOT1 repository.

The embedded code is the fully featured scanner variant of
`src/scripts/arbitrage.js` (the third script in that file, lines 510-721),
whose helper functions `clampDecimalString`, `initDecimals`,
`safeGetAmountsOut` and `checkArbDirection` are the reference points of the
claims.  Decimal strings are modelled as lists of characters, JavaScript
`String.prototype.split` by `splitOnChar`, ethers `BigInt` amounts by `Nat`
(they are arbitrary-precision non-negative integers in every use here), and
profit by `Int` (BigInt subtraction may go negative).
-/

namespace ArbBot

/-- The separator used by `inputStr.split(".")`. -/
def dotChar : Char := '.'

/-- Mirror of JavaScript `str.split(sep)` for a one-character separator,
on strings represented as character lists. -/
def splitOnChar (sep : Char) : List Char → List (List Char)
  | [] => [[]]
  | c :: rest =>
    match splitOnChar sep rest with
    | [] => [[]]
    | h :: t => if c = sep then [] :: h :: t else (c :: h) :: t

/-- Decimal-digit test, `48 ≤ code ≤ 57` (the `[0-9]` class of the ethers
number grammar). -/
def isDigitChar (c : Char) : Bool := decide (48 ≤ c.toNat) && decide (c.toNat ≤ 57)

/-- Numeric value of a digit character. -/
def digitVal (c : Char) : Nat := c.toNat - 48

/-- Value of a digit string read in base 10. -/
def digitsToNat (s : List Char) : Nat := s.foldl (fun n c => n * 10 + digitVal c) 0

/-- The ethers `parseUnits(value, decimals)` conversion for a non-negative
decimal string: the integer part scaled by `10 ^ decimals` plus the
fractional digits padded to `decimals` places.  `none` models the exception
ethers throws on a malformed string or on more than `decimals` fractional
digits.  (The sign branch of ethers is omitted: every amount the scripts
convert is a non-negative configuration string.) -/
def parseUnits (s : List Char) (decimals : Nat) : Option Nat :=
  match splitOnChar dotChar s with
  | [i] =>
    if i ≠ [] ∧ i.all isDigitChar then some (digitsToNat i * 10 ^ decimals) else none
  | [i, f] =>
    if (i ≠ [] ∨ f ≠ []) ∧ i.all isDigitChar ∧ f.all isDigitChar ∧ f.length ≤ decimals then
      some (digitsToNat i * 10 ^ decimals + digitsToNat f * 10 ^ (decimals - f.length))
    else none
  | _ => none

/-- Mirror of `clampDecimalString` (src/scripts/arbitrage.js lines 582-588):
split on the dot and, when the fractional part is longer than `decimals`,
keep only its first `decimals` characters (`slice(0, decimals)`); any other
shape is returned unchanged. -/
def clampDecimalString (inputStr : List Char) (decimals : Nat) : List Char :=
  match splitOnChar dotChar inputStr with
  | [a, b] => if decimals < b.length then a ++ dotChar :: b.take decimals else inputStr
  | _ => inputStr

/-- The conversion `initDecimals` applies to both the trade amount and the
minimum-profit string (src/scripts/arbitrage.js lines 602-606):
`parseUnits(clampDecimalString(s, decimals), decimals)`. -/
def toBaseUnits (s : List Char) (decimals : Nat) : Option Nat :=
  parseUnits (clampDecimalString s decimals) decimals

/-! ## The scan / evaluate / execute pipeline

Embedding of `checkArbDirection` and `runLoop` of the executing variant
(src/scripts/arbitrage.js lines 617-712).  Every remote interaction
(`getAmountsOut`, `callStatic.executeArbitrage`, `estimateGas`,
`executeArbitrage`, `tx.wait`) is a field of `Env`; the function returns
both its result and the ordered list of remote calls it issued, so that
theorems can speak about which calls were (not) made. -/

/-- Outcome of one awaited remote call: `ok` with the decoded value, or
`err` when the call threw (timeout, no-pair revert, malformed response). -/
inductive RpcResult (α : Type) where
  | ok (val : α)
  | err
deriving DecidableEq

/-- The remote world one scan direction interacts with.  `nativeBalance`
is the submitting account's native-token balance: it is part of the world
state, and the source never reads it anywhere in the pipeline. -/
structure Env where
  buyQuote : Nat → RpcResult (List Nat)
  sellQuote : Nat → RpcResult (List Nat)
  callStaticArb : Nat → RpcResult Nat
  estimateGas : Nat → RpcResult Nat
  sendTx : Nat → Nat → RpcResult Nat
  waitTx : Nat → RpcResult Nat
  nativeBalance : Nat

/-- One remote call issued by a scan direction, in issue order.
`simulateCall` records whether the state-non-mutating simulation
succeeded; `submitTx` records whether the submission was accepted
(an accepted submission is in flight until its `waitForTx`). -/
inductive RemoteCall where
  | buyQuote (amountIn : Nat)
  | sellQuote (amountIn : Nat)
  | simulateCall (amountIn : Nat) (succeeded : Bool)
  | gasEstimate (amountIn : Nat)
  | submitTx (amountIn gasLimit : Nat) (accepted : Bool)
  | waitForTx (txHash : Nat)
deriving DecidableEq

/-- Result of the execution block (lines 673-687): skipped below the
threshold, an execution error caught at line 682, or a confirmed receipt. -/
inductive ExecOutcome where
  | belowThreshold
  | execError
  | confirmed (receipt : Nat)
deriving DecidableEq

/-- Result of one `checkArbDirection` call.  `evaluated` carries the locals
`buyTokenOut`, `sellUSDCOut` and `profitBase` of lines 639-651. -/
inductive CheckResult where
  | buyFailed
  | sellFailed
  | evaluated (buyTokenOut sellUSDCOut : Nat) (profitBase : Int) (exec : ExecOutcome)
deriving DecidableEq

/-- Mirror of `safeGetAmountsOut` (src/scripts/arbitrage.js lines
623-631): `null` on a thrown call, on fewer than two entries, or on a zero
entry at index 1; the array otherwise.  (The JS also guards a
null/undefined response with `!amounts`; ethers ABI decoding always
yields an array, so that case is subsumed by `err`.) -/
def safeGetAmountsOut (resp : RpcResult (List Nat)) : Option (List Nat) :=
  match resp with
  | .err => none
  | .ok amounts =>
    if amounts.length < 2 ∨ amounts.getD 1 0 = 0 then none else some amounts

/-- Mirror of `checkArbDirection` (src/scripts/arbitrage.js lines
617-692).  Control flow, in source order: buy quote (return on failure),
sell quote at the buy output (return on failure), `profitBase =
sellUSDCOut - amountInUSDC` by BigInt subtraction, the `callStatic`
simulation whose try/catch only logs — its outcome is recorded in the
trace but gates nothing — then, iff `profitBase >= MIN_PROFIT_UNITS`, gas
estimation (+20% margin `gasEst * 120n / 100n`), submission, and the
awaited confirmation; every failure inside the execution try is caught at
line 682. -/
def checkArbDirection (env : Env) (amountInUSDC minProfitUnits : Nat) :
    CheckResult × List RemoteCall :=
  match safeGetAmountsOut (env.buyQuote amountInUSDC) with
  | none => (.buyFailed, [.buyQuote amountInUSDC])
  | some buyOut =>
    match safeGetAmountsOut (env.sellQuote (buyOut.getD 1 0)) with
    | none =>
      (.sellFailed, [.buyQuote amountInUSDC, .sellQuote (buyOut.getD 1 0)])
    | some sellOut =>
      if (minProfitUnits : Int) ≤ (sellOut.getD 1 0 : Int) - (amountInUSDC : Int) then
        match env.estimateGas amountInUSDC with
        | .err =>
          (.evaluated (buyOut.getD 1 0) (sellOut.getD 1 0)
              ((sellOut.getD 1 0 : Int) - (amountInUSDC : Int)) .execError,
            [.buyQuote amountInUSDC, .sellQuote (buyOut.getD 1 0),
              .simulateCall amountInUSDC (simOk env amountInUSDC),
              .gasEstimate amountInUSDC])
        | .ok gasEst =>
          match env.sendTx amountInUSDC (gasEst * 120 / 100) with
          | .err =>
            (.evaluated (buyOut.getD 1 0) (sellOut.getD 1 0)
                ((sellOut.getD 1 0 : Int) - (amountInUSDC : Int)) .execError,
              [.buyQuote amountInUSDC, .sellQuote (buyOut.getD 1 0),
                .simulateCall amountInUSDC (simOk env amountInUSDC),
                .gasEstimate amountInUSDC,
                .submitTx amountInUSDC (gasEst * 120 / 100) false])
          | .ok txHash =>
            match env.waitTx txHash with
            | .err =>
              (.evaluated (buyOut.getD 1 0) (sellOut.getD 1 0)
                  ((sellOut.getD 1 0 : Int) - (amountInUSDC : Int)) .execError,
                [.buyQuote amountInUSDC, .sellQuote (buyOut.getD 1 0),
                  .simulateCall amountInUSDC (simOk env amountInUSDC),
                  .gasEstimate amountInUSDC,
                  .submitTx amountInUSDC (gasEst * 120 / 100) true,
                  .waitForTx txHash])
            | .ok receipt =>
              (.evaluated (buyOut.getD 1 0) (sellOut.getD 1 0)
                  ((sellOut.getD 1 0 : Int) - (amountInUSDC : Int)) (.confirmed receipt),
                [.buyQuote amountInUSDC, .sellQuote (buyOut.getD 1 0),
                  .simulateCall amountInUSDC (simOk env amountInUSDC),
                  .gasEstimate amountInUSDC,
                  .submitTx amountInUSDC (gasEst * 120 / 100) true,
                  .waitForTx txHash])
      else
        (.evaluated (buyOut.getD 1 0) (sellOut.getD 1 0)
            ((sellOut.getD 1 0 : Int) - (amountInUSDC : Int)) .belowThreshold,
          [.buyQuote amountInUSDC, .sellQuote (buyOut.getD 1 0),
            .simulateCall amountInUSDC (simOk env amountInUSDC)])
where
  /-- Whether the `callStatic` simulation of lines 664-671 succeeded; the
  source catch-block only logs a warning, so this value gates nothing. -/
  simOk (env : Env) (amt : Nat) : Bool :=
    match env.callStaticArb amt with
    | .ok _ => true
    | .err => false

/-- The execution attempt lifted to a state space that carries the
in-flight flag the specification describes.  The source maintains no such
flag — `checkArbDirection` (src/scripts/arbitrage.js lines 617-692)
neither reads nor writes any execution-state variable, and none exists in
the repository — so on the extended state the attempt behaves identically
for both flag values and leaves the flag exactly as it found it. -/
def checkArbWithState (env : Env) (inFlight : Bool)
    (amountInUSDC minProfitUnits : Nat) :
    CheckResult × Bool × List RemoteCall :=
  ((checkArbDirection env amountInUSDC minProfitUnits).1, inFlight,
    (checkArbDirection env amountInUSDC minProfitUnits).2)

/-- Startup configuration read once (lines 526-544): the human trade
amount, the minimum-profit string, and the quote asset's precision. -/
structure Config where
  amountHumanStr : List Char
  minProfitStr : List Char
  usdcDecimals : Nat

/-- Mirror of `initDecimals` (lines 591-615): both the trade amount and
the minimum-profit threshold are clamped and parsed once; a parse failure
is fatal to startup (modelled as `none`). -/
def initAmounts (cfg : Config) : Option (Nat × Nat) :=
  match toBaseUnits cfg.amountHumanStr cfg.usdcDecimals,
      toBaseUnits cfg.minProfitStr cfg.usdcDecimals with
  | some a, some m => some (a, m)
  | _, _ => none

/-- One cycle of `runLoop` (lines 700-711): direction A→B, then —
sequentially, after the first attempt has fully returned — direction B→A. -/
def scanCycle (e : Env × Env) (amt minP : Nat) : List RemoteCall :=
  (checkArbDirection e.1 amt minP).2 ++ (checkArbDirection e.2 amt minP).2

/-- Remote-call trace of `n` scan cycles; the remote world may differ per
cycle (`envs i`), the amounts never change after `initDecimals`. -/
def cyclesTrace (envs : Nat → Env × Env) (amt minP : Nat) : Nat → List RemoteCall
  | 0 => []
  | n + 1 => cyclesTrace envs amt minP n ++ scanCycle (envs n) amt minP

/-- Mirror of `runLoop` (lines 695-712): `initDecimals` once, then the
scan cycles with the amounts it computed. -/
def runLoopTrace (cfg : Config) (envs : Nat → Env × Env) (n : Nat) :
    List RemoteCall :=
  match initAmounts cfg with
  | none => []
  | some (a, m) => cyclesTrace envs a m n

/-- A concrete remote world for instantiating theorems: the buy leg quotes
100 quote units into 105 token units, the sell leg back into 101 quote
units, and all execution calls succeed.  Its `nativeBalance` is 0, which
cannot cover any positive submission cost. -/
def demoEnv : Env where
  buyQuote := fun _ => .ok [100, 105]
  sellQuote := fun _ => .ok [105, 101]
  callStaticArb := fun _ => .ok 101
  estimateGas := fun _ => .ok 100
  sendTx := fun _ _ => .ok 7
  waitTx := fun _ => .ok 42
  nativeBalance := 0

/-- `demoEnv` with a rejecting simulation: `callStatic.executeArbitrage`
reverts, everything else succeeds. -/
def simRejectEnv : Env :=
  { demoEnv with callStaticArb := fun _ => .err }

/-- `demoEnv` with a failing buy-venue quote (no pair). -/
def buyFailEnv : Env :=
  { demoEnv with buyQuote := fun _ => .err }

/-- An accepted settlement submission (in flight until its wait). -/
def isAcceptedSubmit : RemoteCall → Bool
  | .submitTx _ _ true => true
  | _ => false

/-- A confirmation wait. -/
def isWaitEvent : RemoteCall → Bool
  | .waitForTx _ => true
  | _ => false

/-- Step relation: an accepted submission must be immediately followed by
its confirmation wait. -/
def submitAwaitedStep (x y : RemoteCall) : Prop :=
  isAcceptedSubmit x = true → isWaitEvent y = true

/-- Sequentiality invariant of a remote-call trace: every accepted
submission is immediately followed by its confirmation wait — and the
trace does not end on an unawaited accepted submission — so at no point
are two settlement submissions in flight, nor is any other remote call
issued while one is. -/
def submissionsAwaited (t : List RemoteCall) : Prop :=
  List.Chain' submitAwaitedStep t ∧
    ∀ e ∈ t.getLast?, isAcceptedSubmit e = false

/-- Whether a remote call passes the configured trade amount where one is
passed at all (sell quotes take the buy leg's output, waits take a hash). -/
def usesConfiguredAmount (amt : Nat) : RemoteCall → Bool
  | .buyQuote a => decide (a = amt)
  | .sellQuote _ => true
  | .simulateCall a _ => decide (a = amt)
  | .gasEstimate a => decide (a = amt)
  | .submitTx a _ _ => decide (a = amt)
  | .waitForTx _ => true

/-! ## The part_000 evaluator variant

`arbitrageLoop` in src/unnamed/part_000 (lines 95-117) computes its stored
profit not by BigInt subtraction but as `sellOutNorm - AMOUNT_IN`, where
`sellOutNorm = Number(formatUnits(sellOut, decimals))` and `AMOUNT_IN` is
the human-readable amount string coerced to a JS number.  JS `Number`
arithmetic is modelled here by exact rational arithmetic, which can only
favour the profit-exactness claim: the IEEE doubles the source actually
uses deviate further from the exact integer difference, never less. -/

/-- Mirror of `normalizeAmount` (src/unnamed/part_000 lines 63-65):
`Number(ethers.formatUnits(amount, decimals))`, i.e. the base-unit amount
divided by `10 ^ decimals`, over ℚ. -/
def normalizeAmount (amount : Nat) (decimals : Nat) : ℚ :=
  (amount : ℚ) / 10 ^ decimals

/-- Stored profit of the part_000 `arbitrageLoop` (lines 103-107):
`sellOutNorm - AMOUNT_IN`, a human-unit difference. -/
def arbitrageLoopProfit (sellOut : Nat) (usdcDecimals : Nat)
    (amountInHuman : ℚ) : ℚ :=
  normalizeAmount sellOut usdcDecimals - amountInHuman

/-- Mirror of `getAmountOutRaw` (src/unnamed/part_000 lines 47-61): the
last element of the amounts array on success — `amounts[amounts.length -
1]` — and a zero sentinel when the remote call throws (the catch at line
59 returns `ethers.BigInt(0)` instead of failing).  A successful empty
array would yield JS `undefined`; the zero default stands in for that
unexercised edge. -/
def getAmountOutRaw (resp : RpcResult (List Nat)) : Nat :=
  match resp with
  | .ok amounts => (amounts.getLast?).getD 0
  | .err => 0

/-- The two quote legs of the part_000 `arbitrageLoop` (lines 95-106),
with the remote quote calls recorded in order: the buy output —
`getAmountOutRaw`'s zero sentinel included — is passed to the sell-venue
quote unconditionally; no guard exists between the legs.  Returns
`(buyOut, sellOut, trace)`. -/
def arbitrageLoopLegs (env : Env) (amountInRaw : Nat) :
    Nat × Nat × List RemoteCall :=
  (getAmountOutRaw (env.buyQuote amountInRaw),
    getAmountOutRaw (env.sellQuote (getAmountOutRaw (env.buyQuote amountInRaw))),
    [RemoteCall.buyQuote amountInRaw,
      RemoteCall.sellQuote (getAmountOutRaw (env.buyQuote amountInRaw))])

/-- The startup configuration used to instantiate the loop theorems:
trade amount `"100"`, minimum profit `"0.000001"`, 6 decimals. -/
def cfgDemo : Config := ⟨"100".toList, "0.000001".toList, 6⟩

/-! ## Theorems -/

theorem isDigitChar_ne_dot {c : Char} (h : isDigitChar c = true) : c ≠ dotChar := by
  intro hc
  subst hc
  exact absurd h (by decide)

theorem dot_not_mem_of_all_digits {l : List Char} (h : l.all isDigitChar = true) :
    dotChar ∉ l := by
  intro hm
  exact isDigitChar_ne_dot (List.all_eq_true.mp h _ hm) rfl

theorem splitOnChar_ne_nil (sep : Char) (l : List Char) : splitOnChar sep l ≠ [] := by
  cases l with
  | nil => simp [splitOnChar]
  | cons c rest =>
    simp only [splitOnChar]
    cases splitOnChar sep rest with
    | nil => simp
    | cons h t =>
      by_cases hc : c = sep <;> simp [hc]

theorem splitOnChar_of_not_mem {sep : Char} {l : List Char} (h : sep ∉ l) :
    splitOnChar sep l = [l] := by
  induction l with
  | nil => rfl
  | cons c rest ih =>
    have hc : ¬ c = sep := fun hcs => h (hcs ▸ List.mem_cons_self c rest)
    have hrest : sep ∉ rest := fun hm => h (List.mem_cons_of_mem _ hm)
    simp [splitOnChar, ih hrest, hc]

theorem splitOnChar_append_sep {sep : Char} {a : List Char} (b : List Char)
    (ha : sep ∉ a) :
    splitOnChar sep (a ++ sep :: b) = a :: splitOnChar sep b := by
  induction a with
  | nil =>
    cases hs : splitOnChar sep b with
    | nil => exact absurd hs (splitOnChar_ne_nil sep b)
    | cons h t => simp [splitOnChar, hs]
  | cons c rest ih =>
    have hc : ¬ c = sep := fun hcs => ha (hcs ▸ List.mem_cons_self c rest)
    have hrest : sep ∉ rest := fun hm => ha (List.mem_cons_of_mem _ hm)
    have hih : splitOnChar sep (rest.append (sep :: b)) = rest :: splitOnChar sep b :=
      ih hrest
    simp only [List.cons_append, splitOnChar, hih, hc, if_false]

theorem digitsToNat_aux (l : List Char) (acc : Nat) :
    l.foldl (fun n c => n * 10 + digitVal c) acc
      = acc * 10 ^ l.length + digitsToNat l := by
  induction l generalizing acc with
  | nil => simp [digitsToNat]
  | cons c rest ih =>
    have h1 : (c :: rest).foldl (fun n c => n * 10 + digitVal c) acc
        = rest.foldl (fun n c => n * 10 + digitVal c) (acc * 10 + digitVal c) := rfl
    have h2 : digitsToNat (c :: rest)
        = rest.foldl (fun n c => n * 10 + digitVal c) (digitVal c) := by
      simp [digitsToNat]
    rw [h1, ih, h2, ih]
    simp [List.length_cons, pow_succ]
    ring

theorem digitsToNat_cons (c : Char) (rest : List Char) :
    digitsToNat (c :: rest) = digitVal c * 10 ^ rest.length + digitsToNat rest := by
  have : digitsToNat (c :: rest)
      = rest.foldl (fun n c => n * 10 + digitVal c) (digitVal c) := by
    simp [digitsToNat]
  rw [this, digitsToNat_aux]

theorem digitsToNat_append (x y : List Char) :
    digitsToNat (x ++ y) = digitsToNat x * 10 ^ y.length + digitsToNat y := by
  unfold digitsToNat
  rw [List.foldl_append, digitsToNat_aux]
  rfl

theorem digitVal_le_nine {c : Char} (h : isDigitChar c = true) : digitVal c ≤ 9 := by
  simp only [isDigitChar, Bool.and_eq_true, decide_eq_true_eq] at h
  unfold digitVal
  omega

theorem digitsToNat_lt (l : List Char) (h : l.all isDigitChar = true) :
    digitsToNat l < 10 ^ l.length := by
  induction l with
  | nil => simp [digitsToNat]
  | cons c rest ih =>
    simp only [List.all_cons, Bool.and_eq_true] at h
    have h9 : digitVal c ≤ 9 := digitVal_le_nine h.1
    have hr := ih h.2
    rw [digitsToNat_cons, List.length_cons, pow_succ]
    have hA : (0:Nat) < 10 ^ rest.length := Nat.pos_pow_of_pos _ (by norm_num)
    nlinarith

theorem all_digits_take {l : List Char} (n : Nat) (h : l.all isDigitChar = true) :
    (l.take n).all isDigitChar = true := by
  rw [List.all_eq_true] at h ⊢
  exact fun c hc => h c (List.take_subset n l hc)

theorem all_digits_drop {l : List Char} (n : Nat) (h : l.all isDigitChar = true) :
    (l.drop n).all isDigitChar = true := by
  rw [List.all_eq_true] at h ⊢
  exact fun c hc => h c (List.drop_subset n l hc)

theorem parseUnits_split_pair (s i f : List Char) (d : Nat)
    (hs : splitOnChar dotChar s = [i, f]) :
    parseUnits s d =
      if (i ≠ [] ∨ f ≠ []) ∧ i.all isDigitChar ∧ f.all isDigitChar ∧ f.length ≤ d then
        some (digitsToNat i * 10 ^ d + digitsToNat f * 10 ^ (d - f.length))
      else none := by
  unfold parseUnits
  rw [hs]

/-- Core computation of the truncating conversion: on a decimal string with
integer digits `a` and more fractional digits `b` than the precision `d`,
`toBaseUnits` produces exactly the floor of the scaled value — the excess
digits are dropped, i.e. the value is truncated toward zero and never
rounded up (`Nat` division truncates). -/
theorem toBaseUnits_truncates (a b : List Char) (d : Nat)
    (ha : a.all isDigitChar = true) (hb : b.all isDigitChar = true)
    (hane : a ≠ []) (hd : d < b.length) :
    toBaseUnits (a ++ dotChar :: b) d
      = some ((digitsToNat a * 10 ^ b.length + digitsToNat b) / 10 ^ (b.length - d)) := by
  have hdota : dotChar ∉ a := dot_not_mem_of_all_digits ha
  have hdotb : dotChar ∉ b := dot_not_mem_of_all_digits hb
  have hsplit : splitOnChar dotChar (a ++ dotChar :: b) = [a, b] := by
    rw [splitOnChar_append_sep b hdota, splitOnChar_of_not_mem hdotb]
  have hdottake : dotChar ∉ b.take d :=
    fun hm => hdotb (List.take_subset d b hm)
  have hsplit2 : splitOnChar dotChar (a ++ dotChar :: b.take d) = [a, b.take d] := by
    rw [splitOnChar_append_sep (b.take d) hdota, splitOnChar_of_not_mem hdottake]
  have hlen : (b.take d).length = d := by
    rw [List.length_take]
    omega
  have hguard : (a ≠ [] ∨ b.take d ≠ []) ∧ a.all isDigitChar = true ∧
      (b.take d).all isDigitChar = true ∧ (b.take d).length ≤ d :=
    ⟨Or.inl hane, ha, all_digits_take d hb, le_of_eq hlen⟩
  unfold toBaseUnits clampDecimalString
  rw [hsplit]
  simp only [hd, if_true]
  rw [parseUnits_split_pair _ a (b.take d) d hsplit2, if_pos hguard, hlen]
  simp only [Nat.sub_self, pow_zero, mul_one]
  congr 1
  -- arithmetic: A * 10 ^ d + T = (A * 10 ^ bl + B) / 10 ^ (bl - d)
  have hdec : b = b.take d ++ b.drop d := (List.take_append_drop d b).symm
  have hlendrop : (b.drop d).length = b.length - d := List.length_drop d b
  have hB : digitsToNat b
      = digitsToNat (b.take d) * 10 ^ (b.length - d) + digitsToNat (b.drop d) := by
    conv_lhs => rw [hdec]
    rw [digitsToNat_append, hlendrop]
  have hDlt : digitsToNat (b.drop d) < 10 ^ (b.length - d) := by
    have := digitsToNat_lt (b.drop d) (all_digits_drop d hb)
    rwa [hlendrop] at this
  have hblen : b.length = d + (b.length - d) := by omega
  have hnum : digitsToNat a * 10 ^ b.length + digitsToNat b
      = 10 ^ (b.length - d) * (digitsToNat a * 10 ^ d + digitsToNat (b.take d))
        + digitsToNat (b.drop d) := by
    rw [hB]
    conv_lhs => rw [hblen]
    rw [pow_add]
    have he : d + (b.length - d) - d = b.length - d := by omega
    rw [he]
    ring
  rw [hnum, Nat.mul_add_div (Nat.pos_pow_of_pos _ (by norm_num)),
    Nat.div_eq_of_lt hDlt, Nat.add_zero]

/-- Companion computation: when the fractional part fits inside the
precision, `clampDecimalString` leaves the string unchanged and
`parseUnits` pads the fractional digits. -/
theorem toBaseUnits_no_excess (a b : List Char) (d : Nat)
    (ha : a.all isDigitChar = true) (hb : b.all isDigitChar = true)
    (hane : a ≠ []) (hd : b.length ≤ d) :
    toBaseUnits (a ++ dotChar :: b) d
      = some (digitsToNat a * 10 ^ d + digitsToNat b * 10 ^ (d - b.length)) := by
  have hdota : dotChar ∉ a := dot_not_mem_of_all_digits ha
  have hdotb : dotChar ∉ b := dot_not_mem_of_all_digits hb
  have hsplit : splitOnChar dotChar (a ++ dotChar :: b) = [a, b] := by
    rw [splitOnChar_append_sep b hdota, splitOnChar_of_not_mem hdotb]
  have hguard : (a ≠ [] ∨ b ≠ []) ∧ a.all isDigitChar = true ∧
      b.all isDigitChar = true ∧ b.length ≤ d := ⟨Or.inl hane, ha, hb, hd⟩
  unfold toBaseUnits clampDecimalString
  rw [hsplit]
  simp only [Nat.not_lt.mpr hd, if_false]
  rw [parseUnits_split_pair _ a b d hsplit, if_pos hguard]

/-- C6: for every decimal string with more fractional digits than the
asset's precision, `toBaseUnits` (the `clampDecimalString` + `parseUnits`
pipeline of `initDecimals`, src/scripts/arbitrage.js lines 582-606)
truncates the excess digits toward zero — the result is the `Nat`-floor of
the exactly scaled value, never a rounding up — and in particular
`toBaseUnits "1.23456" 2 = toBaseUnits "1.23" 2`. -/
theorem c6_toBaseUnits_truncates_toward_zero (a b : List Char) (d : Nat)
    (ha : a.all isDigitChar = true) (hb : b.all isDigitChar = true)
    (hane : a ≠ []) (hd : d < b.length) :
    toBaseUnits (a ++ dotChar :: b) d
      = some ((digitsToNat a * 10 ^ b.length + digitsToNat b) / 10 ^ (b.length - d))
    ∧ toBaseUnits "1.23456".toList 2 = toBaseUnits "1.23".toList 2 :=
  ⟨toBaseUnits_truncates a b d ha hb hane hd, by decide⟩

theorem c6_witness :
    ("1".toList.all isDigitChar = true) ∧ ("23456".toList.all isDigitChar = true) ∧
    ("1".toList ≠ []) ∧ (2 < "23456".toList.length) ∧
    (toBaseUnits ("1".toList ++ dotChar :: "23456".toList) 2
        = some ((digitsToNat "1".toList * 10 ^ "23456".toList.length
            + digitsToNat "23456".toList) / 10 ^ ("23456".toList.length - 2))
      ∧ toBaseUnits "1.23456".toList 2 = toBaseUnits "1.23".toList 2) :=
  ⟨by decide, by decide, by decide, by decide,
    c6_toBaseUnits_truncates_toward_zero "1".toList "23456".toList 2
      (by decide) (by decide) (by decide) (by decide)⟩

/-- C7 counterexample: the configured minimum-profit string `"0.0000001"`
is smaller than one base unit at precision 6, and the derived threshold
(`initDecimals`, src/scripts/arbitrage.js lines 602-606) is `0` base
units — not the `1` base unit the claim requires.  No upward clamp exists
in the code. -/
theorem c7_counterexample :
    toBaseUnits "0.0000001".toList 6 = some 0
      ∧ toBaseUnits "0.0000001".toList 6 ≠ some 1 := by
  constructor
  · decide
  · decide

/-- C7 amended: a configured minimum-profit decimal string whose value is
smaller than one base unit at the asset's precision (`value * 10 ^ d < 1`,
stated below with the numerator scaled by `10 ^ b.length`) derives a
`MinProfitThreshold` of exactly `0` base units: the code truncates and
applies no upward clamp. -/
theorem c7_subunit_threshold_truncates_to_zero (a b : List Char) (d : Nat)
    (ha : a.all isDigitChar = true) (hb : b.all isDigitChar = true)
    (hane : a ≠ [])
    (hsub : (digitsToNat a * 10 ^ b.length + digitsToNat b) * 10 ^ d < 10 ^ b.length) :
    toBaseUnits (a ++ dotChar :: b) d = some 0 := by
  by_cases hd : d < b.length
  · rw [toBaseUnits_truncates a b d ha hb hane hd]
    have hsplitpow : (10:Nat) ^ b.length = 10 ^ (b.length - d) * 10 ^ d := by
      rw [← pow_add]
      congr 1
      omega
    have hlt : digitsToNat a * 10 ^ b.length + digitsToNat b < 10 ^ (b.length - d) := by
      nth_rewrite 2 [hsplitpow] at hsub
      exact Nat.lt_of_mul_lt_mul_right hsub
    rw [Nat.div_eq_of_lt hlt]
  · have hd2 : b.length ≤ d := Nat.not_lt.mp hd
    rw [toBaseUnits_no_excess a b d ha hb hane hd2]
    have hPQ : (10:Nat) ^ b.length ≤ 10 ^ d := Nat.pow_le_pow_right (by norm_num) hd2
    have hX : digitsToNat a * 10 ^ b.length + digitsToNat b = 0 := by
      by_contra hne
      have hge : 1 ≤ digitsToNat a * 10 ^ b.length + digitsToNat b :=
        Nat.one_le_iff_ne_zero.mpr hne
      have hq : (10:Nat) ^ d ≤ (digitsToNat a * 10 ^ b.length + digitsToNat b) * 10 ^ d :=
        Nat.le_mul_of_pos_left _ hge
      exact absurd (lt_of_le_of_lt hq (lt_of_lt_of_le hsub hPQ)) (lt_irrefl _)
    have hA : digitsToNat a = 0 := by
      have h10 : (0:Nat) < 10 ^ b.length := Nat.pos_pow_of_pos _ (by norm_num)
      rcases Nat.add_eq_zero.mp hX with ⟨hAP, _⟩
      rcases Nat.mul_eq_zero.mp hAP with h | h
      · exact h
      · omega
    have hBz : digitsToNat b = 0 := (Nat.add_eq_zero.mp hX).2
    rw [hA, hBz]
    simp

theorem c7_witness :
    ("0".toList.all isDigitChar = true) ∧ ("0000001".toList.all isDigitChar = true) ∧
    ("0".toList ≠ []) ∧
    ((digitsToNat "0".toList * 10 ^ "0000001".toList.length
        + digitsToNat "0000001".toList) * 10 ^ 6 < 10 ^ "0000001".toList.length) ∧
    toBaseUnits ("0".toList ++ dotChar :: "0000001".toList) 6 = some 0 :=
  ⟨by decide, by decide, by decide, by decide,
    c7_subunit_threshold_truncates_to_zero "0".toList "0000001".toList 6
      (by decide) (by decide) (by decide) (by decide)⟩

/-- Exhaustive enumeration of the remote-call traces one `checkArbDirection`
call can produce, one disjunct per exit path of the source function. -/
theorem checkArb_trace_shape (env : Env) (amt minP : Nat) :
    ∃ b w g s,
      (checkArbDirection env amt minP).2 = [RemoteCall.buyQuote amt]
      ∨ (checkArbDirection env amt minP).2
          = [RemoteCall.buyQuote amt, RemoteCall.sellQuote b]
      ∨ (checkArbDirection env amt minP).2
          = [RemoteCall.buyQuote amt, RemoteCall.sellQuote b,
              RemoteCall.simulateCall amt s]
      ∨ (checkArbDirection env amt minP).2
          = [RemoteCall.buyQuote amt, RemoteCall.sellQuote b,
              RemoteCall.simulateCall amt s, RemoteCall.gasEstimate amt]
      ∨ (checkArbDirection env amt minP).2
          = [RemoteCall.buyQuote amt, RemoteCall.sellQuote b,
              RemoteCall.simulateCall amt s, RemoteCall.gasEstimate amt,
              RemoteCall.submitTx amt g false]
      ∨ (checkArbDirection env amt minP).2
          = [RemoteCall.buyQuote amt, RemoteCall.sellQuote b,
              RemoteCall.simulateCall amt s, RemoteCall.gasEstimate amt,
              RemoteCall.submitTx amt g true, RemoteCall.waitForTx w] := by
  unfold checkArbDirection
  split
  · exact ⟨0, 0, 0, true, Or.inl rfl⟩
  · split
    · exact ⟨_, 0, 0, true, Or.inr (Or.inl rfl)⟩
    · split
      · split
        · exact ⟨_, 0, 0, _, Or.inr (Or.inr (Or.inr (Or.inl rfl)))⟩
        · split
          · exact ⟨_, 0, _, _, Or.inr (Or.inr (Or.inr (Or.inr (Or.inl rfl))))⟩
          · split
            · exact ⟨_, _, _, _, Or.inr (Or.inr (Or.inr (Or.inr (Or.inr rfl))))⟩
            · exact ⟨_, _, _, _, Or.inr (Or.inr (Or.inr (Or.inr (Or.inr rfl))))⟩
      · exact ⟨_, 0, 0, _, Or.inr (Or.inr (Or.inl rfl))⟩

theorem submissionsAwaited_nil : submissionsAwaited [] :=
  ⟨List.chain'_nil, by simp⟩

theorem submissionsAwaited_append {t1 t2 : List RemoteCall}
    (h1 : submissionsAwaited t1) (h2 : submissionsAwaited t2) :
    submissionsAwaited (t1 ++ t2) := by
  constructor
  · rw [List.chain'_append]
    refine ⟨h1.1, h2.1, ?_⟩
    intro x hx y hy hacc
    exact absurd hacc (by simp [h1.2 x hx])
  · intro e he
    rcases eq_or_ne t2 [] with rfl | hne
    · rw [List.append_nil] at he
      exact h1.2 e he
    · rw [List.getLast?_append_of_ne_nil _ hne] at he
      exact h2.2 e he

/-- Every exit path of one execution attempt awaits its accepted
submission (if any) before returning. -/
theorem checkArb_submissionsAwaited (env : Env) (amt minP : Nat) :
    submissionsAwaited (checkArbDirection env amt minP).2 := by
  obtain ⟨b, w, g, s, h⟩ := checkArb_trace_shape env amt minP
  rcases h with h | h | h | h | h | h <;> rw [h] <;>
    exact ⟨by simp [List.chain'_cons, submitAwaitedStep, isAcceptedSubmit, isWaitEvent],
      by simp [isAcceptedSubmit]⟩

/-- Within one direction, every buy quote, simulation, gas estimate and
submission carries exactly the `amountInUSDC` argument. -/
theorem checkArb_trace_uses_amount (env : Env) (amt minP : Nat) :
    ((checkArbDirection env amt minP).2).all (usesConfiguredAmount amt) = true := by
  obtain ⟨b, w, g, s, h⟩ := checkArb_trace_shape env amt minP
  rcases h with h | h | h | h | h | h <;> rw [h] <;> simp [usesConfiguredAmount]

/-- Exhaustive enumeration of `checkArbDirection` results: every
`evaluated` result stores exactly the integer difference
`sellUSDCOut - amountInUSDC` as its profit. -/
theorem checkArb_result_shape (env : Env) (amt minP : Nat) :
    (checkArbDirection env amt minP).1 = CheckResult.buyFailed
    ∨ (checkArbDirection env amt minP).1 = CheckResult.sellFailed
    ∨ ∃ b s e, (checkArbDirection env amt minP).1
        = CheckResult.evaluated b s ((s : Int) - (amt : Int)) e := by
  unfold checkArbDirection
  split
  · exact Or.inl rfl
  · split
    · exact Or.inr (Or.inl rfl)
    · split
      · split
        · exact Or.inr (Or.inr ⟨_, _, _, rfl⟩)
        · split
          · exact Or.inr (Or.inr ⟨_, _, _, rfl⟩)
          · split
            · exact Or.inr (Or.inr ⟨_, _, _, rfl⟩)
            · exact Or.inr (Or.inr ⟨_, _, _, rfl⟩)
      · exact Or.inr (Or.inr ⟨_, _, _, rfl⟩)

/-! ## Claims -/

/-- C1 counterexample: with the default trade amount `"0.0008"`
(`amountInRaw = 800` base units at 6 decimals) and a sell-leg output of
2000000 base units, the part_000 `arbitrageLoop` stores profit
`2 - 0.0008 = 1.9992` — a human-unit value — and not the exact integer
difference `2000000 - 800 = 1999200` the claim requires of the evaluator,
even under exact (rounding-free) arithmetic. -/
theorem c1_counterexample :
    parseUnits "0.0008".toList 6 = some 800
    ∧ arbitrageLoopProfit 2000000 6 (8 / 10000) ≠ ((2000000 - 800 : Int) : ℚ) := by
  refine ⟨by decide, ?_⟩
  unfold arbitrageLoopProfit normalizeAmount
  norm_num

/-- C1 amended: in the `checkArbDirection` evaluators (src/scripts/
arbitrage.js lines 650-652) the stored profit is the exact integer
difference `sellUSDCOut - amountInUSDC` of the two quote-leg base-unit
amounts — BigInt subtraction, possibly negative, with no floating-point
value involved; the part_000 `arbitrageLoop` variant instead stores a
floating-point human-unit difference. -/
theorem c1_profit_is_exact_difference (env : Env) (amt minP : Nat)
    (b s : Nat) (p : Int) (e : ExecOutcome)
    (h : (checkArbDirection env amt minP).1 = CheckResult.evaluated b s p e) :
    p = (s : Int) - (amt : Int) := by
  rcases checkArb_result_shape env amt minP with h2 | h2 | ⟨b2, s2, e2, h2⟩ <;>
      rw [h2] at h
  · exact absurd h (by simp)
  · exact absurd h (by simp)
  · simp only [CheckResult.evaluated.injEq] at h
    obtain ⟨-, hs, hp, -⟩ := h
    subst hs
    exact hp.symm

theorem c1_witness :
    ((checkArbDirection demoEnv 100 1).1
        = CheckResult.evaluated 105 101 1 (ExecOutcome.confirmed 42))
    ∧ (1 : Int) = ((101 : Nat) : Int) - ((100 : Nat) : Int) :=
  ⟨by decide,
    c1_profit_is_exact_difference demoEnv 100 1 105 101 1
      (ExecOutcome.confirmed 42) (by decide)⟩

/-- C2 counterexample: invoked while the (explicitly threaded) in-flight
flag is `true`, the execution attempt does not return any Busy outcome —
no such outcome exists in the code — and still performs a remote
submission call: the claimed mutual-exclusion mechanism is absent. -/
theorem c2_counterexample :
    (checkArbWithState demoEnv true 100 1).1
        = CheckResult.evaluated 105 101 1 (ExecOutcome.confirmed 42)
    ∧ RemoteCall.submitTx 100 120 true ∈ (checkArbWithState demoEnv true 100 1).2.2 := by
  decide

theorem cyclesTrace_awaited (envs : Nat → Env × Env) (a m : Nat) :
    ∀ n, submissionsAwaited (cyclesTrace envs a m n)
  | 0 => submissionsAwaited_nil
  | n + 1 =>
    submissionsAwaited_append (cyclesTrace_awaited envs a m n)
      (submissionsAwaited_append (checkArb_submissionsAwaited _ _ _)
        (checkArb_submissionsAwaited _ _ _))

/-- C2 amended: the code maintains no `ExecutionState.inFlight` flag and
has no Busy path; at most one settlement submission is in flight at any
instant holds nevertheless, by strict sequentiality: in the remote-call
trace of any number of scan cycles, every accepted submission is
immediately followed by its awaited confirmation, before any further
remote call is issued. -/
theorem c2_at_most_one_submission_in_flight (cfg : Config)
    (envs : Nat → Env × Env) (n : Nat) :
    submissionsAwaited (runLoopTrace cfg envs n) := by
  unfold runLoopTrace
  split
  · exact submissionsAwaited_nil
  · exact cyclesTrace_awaited envs _ _ n

/-- C3 counterexample: after an execution attempt entered with the
in-flight flag `true` returns (here on the fully successful path), the
flag is still `true`, not `false`: the code contains no release — and no
acquisition — of any such flag on any exit path. -/
theorem c3_counterexample :
    (checkArbWithState demoEnv true 100 1).2.1 = true := by
  decide

/-- C3 amended: there is no lock to release — the attempt leaves the
in-flight state exactly as it found it on every outcome — and what holds
instead is that every exit path returns only after its accepted
submission, if any, has been awaited to completion. -/
theorem c3_no_lock_exists_attempt_preserves_flag (env : Env) (b : Bool)
    (amt minP : Nat) :
    (checkArbWithState env b amt minP).2.1 = b
    ∧ submissionsAwaited (checkArbWithState env b amt minP).2.2 :=
  ⟨rfl, checkArb_submissionsAwaited env amt minP⟩

/-- C4: evaluation at the failing input: the simulation call rejects
(`callStatic.executeArbitrage` reverts), the computed profit `1` clears
the threshold `1`, and the code still submits the settlement transaction —
the catch at src/scripts/arbitrage.js line 669-671 only logs, and the
execution gate at line 673 tests profit alone, unlike the sibling variant
(lines 438-452) whose `canExecute` flag makes simulation failure fatal. -/
theorem c4_sim_rejected_still_submits :
    simRejectEnv.callStaticArb 100 = RpcResult.err
    ∧ RemoteCall.simulateCall 100 false ∈ (checkArbDirection simRejectEnv 100 1).2
    ∧ RemoteCall.submitTx 100 120 true ∈ (checkArbDirection simRejectEnv 100 1).2 := by
  decide

/-- C5 counterexample: a (malformed) response array whose final element is
zero but whose element at index 1 is non-zero is not rejected:
`safeGetAmountsOut` checks index 1, not the final element, so the claim as
stated — Failed whenever the final element is zero — fails on this input. -/
theorem c5_counterexample :
    ([1, 2, 0] : List Nat).getLast? = some 0
    ∧ safeGetAmountsOut (RpcResult.ok [1, 2, 0]) ≠ none := by
  decide

/-- C5 amended: `safeGetAmountsOut` returns a Failed result (`none`),
never propagating the underlying error, whenever the remote call errors,
the returned array has fewer than two entries (the length of every path
used, which is 2), or the entry at index 1 — the output slot of the
two-hop path — is zero. -/
theorem c5_quote_failure_contract (resp : RpcResult (List Nat))
    (h : resp = RpcResult.err
      ∨ ∃ l, resp = RpcResult.ok l ∧ (l.length < 2 ∨ l.getD 1 0 = 0)) :
    safeGetAmountsOut resp = none := by
  rcases h with rfl | ⟨l, rfl, hl⟩
  · rfl
  · show (if l.length < 2 ∨ l.getD 1 0 = 0 then none else some l) = none
    rw [if_pos hl]

theorem c5_witness :
    ((RpcResult.err : RpcResult (List Nat)) = RpcResult.err
      ∨ ∃ l, (RpcResult.err : RpcResult (List Nat)) = RpcResult.ok l
          ∧ (l.length < 2 ∨ l.getD 1 0 = 0))
    ∧ safeGetAmountsOut (RpcResult.err : RpcResult (List Nat)) = none :=
  ⟨Or.inl rfl, c5_quote_failure_contract _ (Or.inl rfl)⟩

/-- C8 counterexample: in the part_000 `arbitrageLoop`, a failed
buy-venue quote does not skip the direction: `getAmountOutRaw` swallows
the failure into a zero sentinel (line 59) and line 100 still issues the
sell-venue quote with that zero buy-leg output — refuting, for that cited
evaluator, the claim that no sell-venue call is made and that the sell leg
is never issued with a zero or absent buy output. -/
theorem c8_counterexample :
    safeGetAmountsOut (buyFailEnv.buyQuote 100) = none
    ∧ getAmountOutRaw (buyFailEnv.buyQuote 100) = 0
    ∧ RemoteCall.sellQuote 0 ∈ (arbitrageLoopLegs buyFailEnv 100).2.2 := by
  decide

/-- C8 amended: in `checkArbDirection` (src/scripts/arbitrage.js lines
633-638) the claim holds: whenever the buy-venue quote fails
(`safeGetAmountsOut` returns `null`), the evaluator returns at once with
the buy-failed outcome and no sell-venue quote call appears in its
remote-call trace.  The part_000 `arbitrageLoop`, by contrast, has no
guard between the legs and issues the sell quote with the zero sentinel. -/
theorem c8_buy_failure_skips_sell (env : Env) (amt minP : Nat)
    (h : safeGetAmountsOut (env.buyQuote amt) = none) :
    (checkArbDirection env amt minP).1 = CheckResult.buyFailed
    ∧ ∀ x, RemoteCall.sellQuote x ∉ (checkArbDirection env amt minP).2 := by
  unfold checkArbDirection
  rw [h]
  refine ⟨rfl, fun x hx => ?_⟩
  have hx2 : RemoteCall.sellQuote x ∈ [RemoteCall.buyQuote amt] := hx
  simp at hx2

theorem c8_witness :
    safeGetAmountsOut (buyFailEnv.buyQuote 100) = none
    ∧ ((checkArbDirection buyFailEnv 100 1).1 = CheckResult.buyFailed
      ∧ ∀ x, RemoteCall.sellQuote x ∉ (checkArbDirection buyFailEnv 100 1).2) :=
  ⟨by decide, c8_buy_failure_skips_sell buyFailEnv 100 1 (by decide)⟩

/-- C9 counterexample: with a native balance of 0 — insufficient for any
positive worst-case cost — a profitable opportunity is still submitted:
no InsufficientBalance rejection exists and no balance check precedes the
submission. -/
theorem c9_counterexample :
    demoEnv.nativeBalance = 0
    ∧ RemoteCall.submitTx 100 120 true ∈ (checkArbDirection demoEnv 100 1).2 := by
  decide

/-- C9 amended: the code performs no pre-submission balance check at all:
the attempt's result and its remote-call trace are entirely independent of
the submitting account's native balance, and an actually insufficient
balance can surface only as a failed submission caught per-attempt. -/
theorem c9_no_balance_gate (env : Env) (amt minP b1 b2 : Nat) :
    checkArbDirection { env with nativeBalance := b1 } amt minP
      = checkArbDirection { env with nativeBalance := b2 } amt minP := rfl

/-- C10: the trade amount is converted to base units once by
`initDecimals` and never reassigned: in the remote-call trace of any
number of scan cycles over any per-cycle remote worlds, every buy-leg
quote, every simulation call, every gas estimate and every submitted
settlement transaction carries exactly the initially computed
`amountInUSDC`, in both directions of every cycle. -/
theorem c10_trade_amount_fixed (cfg : Config) (envs : Nat → Env × Env)
    (n a m : Nat) (h : initAmounts cfg = some (a, m)) :
    (runLoopTrace cfg envs n).all (usesConfiguredAmount a) = true := by
  unfold runLoopTrace
  rw [h]
  show (cyclesTrace envs a m n).all (usesConfiguredAmount a) = true
  induction n with
  | zero => rfl
  | succ k ih =>
    have hcy : cyclesTrace envs a m (k + 1)
        = cyclesTrace envs a m k ++ scanCycle (envs k) a m := rfl
    rw [hcy, List.all_append, ih]
    unfold scanCycle
    rw [List.all_append, checkArb_trace_uses_amount, checkArb_trace_uses_amount]
    rfl

theorem c10_witness :
    initAmounts cfgDemo = some (100000000, 1)
    ∧ (runLoopTrace cfgDemo (fun _ => (demoEnv, demoEnv)) 1).all
        (usesConfiguredAmount 100000000) = true :=
  ⟨by decide,
    c10_trade_amount_fixed cfgDemo (fun _ => (demoEnv, demoEnv)) 1 100000000 1
      (by decide)⟩

end ArbBot
